import Mathlib

/-!
Verification of the Quasar flashlight firmware (SinuX, 2018) against its
natural-language specification.  The development shallowly embeds the three
variants of the firmware:

* `src/Quasar/A17DD-L/Atmel Studio project/Quasar/main.c`  (2-byte records, OTC classification)
* `src/Quasar/Nanjg/Atmel Studio project/Quasar/main.c`    (2-byte records, tick-flag classification)
* `src/Quasar/Nanjg/quasar.c`                              (1-byte records, v1.0)

EEPROM bytes are modelled as natural numbers below 256; the store is a total
function from addresses to bytes, with 255 (0xff) the erased sentinel.
-/

namespace Quasar

/-- Truncation to one byte, as a C assignment into a `uint8_t`. -/
def byte (n : Nat) : Nat := n % 256

/-- Pointwise update of a byte store, used to model a single EEPROM write or erase. -/
def upd (s : Nat → Nat) (i v : Nat) : Nat → Nat := fun j => if j = i then v else s j

/-- Mode table of the A17DD-L variant (`groups` in A17DD main.c), with the signed
`sbyte` entries shown as the raw bytes that `pgm_read_byte` returns:
`{-3,-127,64,127,0,0,0,0}` and `{-3,-127,64,127,STROBE,PSTROBE,SOS,0}`. -/
def a17groups : List (List Nat) :=
  [[253, 129, 64, 127, 0, 0, 0, 0], [253, 129, 64, 127, 126, 125, 124, 0]]

/-- Mode table of the Nanjg v2.0 variant (`groups` in Nanjg main.c). -/
def nanjgGroups : List (List Nat) :=
  [[6, 32, 128, 255, 0, 0, 0, 0], [6, 32, 128, 255, 254, 253, 252, 0]]

/-- Mode table of the Nanjg v1.0 variant (`groups` in quasar.c, 7 slots per group). -/
def quasarGroups : List (List Nat) :=
  [[6, 32, 128, 255, 0, 0, 0], [6, 32, 128, 255, 254, 253, 252]]

/-- Table lookup `groups[g][m]` (out-of-range indices give 0 only to totalise;
all claims use in-range indices). -/
def tableGet (t : List (List Nat)) (g m : Nat) : Nat := (t.getD g []).getD m 0

/-- Effective length of a group: the index of the first zero slot, or the table
width if none (spec section 3, ModeValue). -/
def effLen (t : List (List Nat)) (g : Nat) : Nat := (t.getD g []).findIdx (fun v => v == 0)

/-- `getNextMode` of the 2-byte-record variants (identical in A17DD main.c and
Nanjg main.c, with `MODES_COUNT = 8`):
next mode is `(mode + 1) % MODES_COUNT`, reset to 0 if that slot holds 0. -/
def getNextMode (t : List (List Nat)) (group mode : Nat) : Nat :=
  let nextMode := (mode + 1) % 8
  if tableGet t group nextMode = 0 then 0 else nextMode

/-- `getNextMode` of quasar.c (v1.0, `MODES_COUNT = 7`): next mode is `mode + 1`,
reset to 0 when it reaches the width or a zero slot. -/
def getNextModeQ (group mode : Nat) : Nat :=
  let nextMode := mode + 1
  if 7 ≤ nextMode ∨ tableGet quasarGroups group nextMode = 0 then 0 else nextMode

/-- `decodeGroup` of the 2-byte-record variants: `(data >> 4) % GROUPS_COUNT`
with `GROUPS_COUNT = 2`. -/
def decodeGroup (data : Nat) : Nat := (data >>> 4) % 2

/-- `decodeMode` of the 2-byte-record variants: `(data & 0xf) % MODES_COUNT`
with `MODES_COUNT = 8`. -/
def decodeMode (data : Nat) : Nat := (data &&& 15) % 8

/-- `decodeGroup` of quasar.c: `(data & 0x78) >> 3`. -/
def decodeGroupQ (data : Nat) : Nat := (data &&& 120) >>> 3

/-- `decodeMode` of quasar.c: `data & 0x7`. -/
def decodeModeQ (data : Nat) : Nat := data &&& 7

/-- The group clamp in quasar.c `getmode`: `if (group >= GROUPS_COUNT) group = 0;`. -/
def clampGroupQ (data : Nat) : Nat :=
  let g := decodeGroupQ data
  if 2 ≤ g then 0 else g

/-- The mode clamp in quasar.c `getmode`: `if (mode >= MODES_COUNT) mode = 0;`. -/
def clampModeQ (data : Nat) : Nat :=
  let m := decodeModeQ data
  if 7 ≤ m then 0 else m

/-- `codeGroupAndMode` of quasar.c: `a << 3 | b` packed into one byte. -/
def codeGroupAndMode (a b : Nat) : Nat := byte (a <<< 3 ||| b)

/-- The clicks byte of a 2-byte record as the callers of the Nanjg `eepSave`
build it: the tally, with bit 7 set when the short-on marker is to be written. -/
def encodeClicks (t : Nat) (f : Bool) : Nat := byte (if f then t ||| 128 else t)

/-- The group/mode byte of a 2-byte record as `eepSave` writes it: `g << 4 | m`. -/
def encodeGroupMode (g m : Nat) : Nat := byte (g <<< 4 ||| m)

/-- The 1-byte record of quasar.c with the short-on marker folded into bit 7,
as written by `eepSave(codeGroupAndMode(group, mode) | 0x80)`. -/
def encodeRecordQ (g m : Nat) (f : Bool) : Nat :=
  byte (if f then codeGroupAndMode g m ||| 128 else codeGroupAndMode g m)

/-- Tally decode of the Nanjg v2.0 `eepLoad`: `clicksData & 0x7f`. -/
def decodeClicks (c : Nat) : Nat := c &&& 127

/-- Short-flag decode of the Nanjg v2.0 `eepLoad`: `clicksData & 0x80`. -/
def decodeFlag (c : Nat) : Bool := c &&& 128 != 0

/-- Short-flag decode of quasar.c `getmode`: `groupModeData & 0x80`. -/
def decodeFlagQ (d : Nat) : Bool := d &&& 128 != 0

/-- The boot-time scan of the 2-byte-record variants
(`while (((clicksData = eepReadByte(eepos)) == 0xff) && (eepos < 30)) eepos++;`),
as a fuel-bounded recursion; fuel 31 covers the worst case 0..30. -/
def eepFindAux (store : Nat → Nat) : Nat → Nat → Nat
  | 0, pos => pos
  | fuel + 1, pos => if store pos = 255 ∧ pos < 30 then eepFindAux store fuel (pos + 1) else pos

/-- Final scan position of the 2-byte-record variants, starting from `eepos = 0`. -/
def eepFind (store : Nat → Nat) : Nat := eepFindAux store 31 0

/-- The boot-time scan of quasar.c `getmode`
(`while ((eep[eepos] == 0xff) && (eepos < 32)) eepos++;`); note the bound is
checked after the read, so position 32 can be read. -/
def getmodeFindAux (eep : Nat → Nat) : Nat → Nat → Nat
  | 0, pos => pos
  | fuel + 1, pos => if eep pos = 255 ∧ pos < 32 then getmodeFindAux eep fuel (pos + 1) else pos

/-- Final scan position of quasar.c `getmode`, starting from `eepos = 0`. -/
def getmodeFind (eep : Nat → Nat) : Nat := getmodeFindAux eep 33 0

/-- The indices of `eep` that the quasar.c scan loop reads, in order. -/
def getmodeFindReads (eep : Nat → Nat) : Nat → Nat → List Nat
  | 0, _ => []
  | fuel + 1, pos =>
      pos :: (if eep pos = 255 ∧ pos < 32 then getmodeFindReads eep fuel (pos + 1) else [])

/-- The three memory policies, mirroring the `MEM_LAST` / `MEM_FIRST` / `MEM_NEXT`
preprocessor configuration of all variants. -/
inductive Mem
  | last
  | first
  | next

/-- The resolution part of the A17DD `eepLoad`: scan for the first non-erased
byte, read the record, classify short when the second OTC sample exceeds
`CAP_THRESHOLD = 190`, and produce the resolved (group, mode, shortClicks).
`cap` is the value of the second `getADCResult()` call (the first is discarded
by the code).  The memory-policy conditional of the long branch is the
`MEM_NEXT`/`MEM_FIRST`/`MEM_LAST` `#ifdef` chain. -/
def a17Resolve (mem : Mem) (store : Nat → Nat) (cap : Nat) : Nat × Nat × Nat :=
  let pos := eepFind store
  let clicksData := store pos
  let groupMode := store (pos + 1)
  if clicksData = 255 then (0, 0, 0)
  else
    let group := decodeGroup groupMode
    let mode := decodeMode groupMode
    if 190 < cap then
      (group, getNextMode a17groups group mode, byte (clicksData + 1))
    else
      (group,
        match mem with
        | .next => getNextMode a17groups group mode
        | .first => 0
        | .last => mode,
        0)

/-- The resolution part of the Nanjg v2.0 `eepLoad`: classify short when bit 7
of the clicks byte is set; the long branch keeps the stored mode and the stored
tally (tally reset to 0 happens at lock-in time, in the WDT handler). -/
def nanjgResolve (store : Nat → Nat) : Nat × Nat × Nat :=
  let pos := eepFind store
  let clicksData := store pos
  let groupMode := store (pos + 1)
  if clicksData = 255 then (0, 0, 0)
  else
    let shortClicks := decodeClicks clicksData
    let group := decodeGroup groupMode
    let mode := decodeMode groupMode
    if decodeFlag clicksData then
      (group, getNextMode nanjgGroups group mode, byte (shortClicks + 1))
    else (group, mode, shortClicks)

/-- The resolution part of quasar.c `getmode`: scan (which may stop at
position 32, one past the 32-byte buffer, whose content is whatever lies after
the buffer), decode with the clamps, and advance the mode when bit 7 is set.
Returns the resolved (group, mode). -/
def getmode (eep : Nat → Nat) : Nat × Nat :=
  let pos := getmodeFind eep
  let d := eep pos
  let group := clampGroupQ d
  let mode := clampModeQ d
  if decodeFlagQ d then (group, getNextModeQ group mode) else (group, mode)

/-- Wear-leveling position step of the 2-byte-record `eepSave`:
`eepos = (eepos + 2) & 31`. -/
def nextPos (pos : Nat) : Nat := (pos + 2) &&& 31

/-- State of the store after step 1 of `eepSave` (write the clicks byte of the
new record at the new position). -/
def eepSaveW1 (store : Nat → Nat) (pos c : Nat) : Nat → Nat :=
  upd store (nextPos pos) c

/-- State after step 2 of `eepSave` (erase the clicks byte of the old record). -/
def eepSaveE1 (store : Nat → Nat) (pos c : Nat) : Nat → Nat :=
  upd (eepSaveW1 store pos c) pos 255

/-- State after step 3 of `eepSave` (write the group/mode byte `g << 4 | m` of
the new record). -/
def eepSaveW2 (store : Nat → Nat) (pos c g m : Nat) : Nat → Nat :=
  upd (eepSaveE1 store pos c) (nextPos pos + 1) (encodeGroupMode g m)

/-- State after step 4 of `eepSave` (erase the group/mode byte of the old
record). -/
def eepSaveE2 (store : Nat → Nat) (pos c g m : Nat) : Nat → Nat :=
  upd (eepSaveW2 store pos c g m) (pos + 1) 255

/-- Net effect of the 2-byte-record `eepSave(c, g, m)`: the final store and the
advanced write position. -/
def eepSave (store : Nat → Nat) (pos c g m : Nat) : (Nat → Nat) × Nat :=
  (eepSaveE2 store pos c g m, nextPos pos)

/-- The four intermediate store states of `eepSave`, in program order; a power
cut can stop the operation after any of them. -/
def eepSaveSteps (store : Nat → Nat) (pos c g m : Nat) : List (Nat → Nat) :=
  [eepSaveW1 store pos c, eepSaveE1 store pos c,
   eepSaveW2 store pos c g m, eepSaveE2 store pos c g m]

/-- A 2-byte slot `k` (bytes `2k` and `2k+1`) holds a complete record when
neither of its bytes reads as the erased sentinel. -/
def slotComplete (s : Nat → Nat) (k : Nat) : Prop := s (2 * k) ≠ 255 ∧ s (2 * k + 1) ≠ 255

/-- Number of complete 2-byte records among the 16 slots of the 32-byte store. -/
def completeCount (s : Nat → Nat) : Nat :=
  (List.range 16).countP (fun k => decide (s (2 * k) ≠ 255) && decide (s (2 * k + 1) ≠ 255))

/-- A store whose only non-erased bytes are the two bytes `b0`, `b1` of slot `k`. -/
def mkStore (k b0 b1 : Nat) : Nat → Nat :=
  fun i => if i = 2 * k then b0 else if i = 2 * k + 1 then b1 else 255

/-- A store holding the single 2-byte record `(t, d)` in slot 0. -/
def recStore (t d : Nat) : Nat → Nat := mkStore 0 t d

/-- Concrete one-record store used as the C1 counterexample input: slot 0 holds
clicks byte 0x80 and group/mode byte 0x00 (group 0, mode 0, short flag set). -/
def exStore : Nat → Nat := recStore 128 0

/-- Runtime state of the Nanjg v2.0 variant relevant to the WDT tick handler and
the battery-check block: the tick counter, the globals `group`, `mode`,
`shortClicks`, and the EEPROM store with its write position. -/
structure NState where
  ticks : Nat
  group : Nat
  mode : Nat
  clicks : Nat
  store : Nat → Nat
  pos : Nat

/-- The mode the Nanjg WDT handler commits at lock time, following its
`MEM_NEXT`/`MEM_FIRST`/`MEM_LAST` conditional. -/
def lockMode (mem : Mem) (g m : Nat) : Nat :=
  match mem with
  | .next => getNextMode nanjgGroups g m
  | .first => 0
  | .last => m

/-- One WDT tick of the Nanjg v2.0 variant (`ISR(WDT_vect)`): saturating tick
increment, and at `ticks == LOCKTIME` (50) commit `eepSave(0, group, lockMode)`. -/
def wdtStep (mem : Mem) (s : NState) : NState :=
  if s.ticks < 255 then
    let t := s.ticks + 1
    if t = 50 then
      let sv := eepSave s.store s.pos 0 s.group (lockMode mem s.group s.mode)
      { s with ticks := t, store := sv.1, pos := sv.2 }
    else { s with ticks := t }
  else s

/-- `doSleep(count)` of the Nanjg v2.0 variant: each `SLEEP` wakes on the next
WDT interrupt, so sleeping `n` counts runs the tick handler `n` times. -/
def doSleepW (mem : Mem) : Nat → NState → NState
  | 0, s => s
  | n + 1, s => doSleepW mem n (wdtStep mem s)

/-- The Nanjg v2.0 battery-check block of `main`: when `shortClicks >= BATTCHECK`
(16), sleep 50 ticks, blink `blinks` times (each impulse is 10 on + 20 off
ticks), clear `shortClicks` in RAM, and sleep 50 more ticks.  The WDT tick
handler keeps running throughout (it is what persists the cleared tally, at
`ticks == LOCKTIME`). -/
def battcheckBlock (mem : Mem) (blinks : Nat) (s : NState) : NState :=
  if 16 ≤ s.clicks then
    doSleepW mem 50 { doSleepW mem (30 * blinks) (doSleepW mem 50 s) with clicks := 0 }
  else s

/-- Runtime state of the A17DD variant relevant to its battery-check block.  Its
WDT handler is empty, so the sleeps and blinks of the block have no state
effect and only the final `eepSave(0, group, mode)` is modelled. -/
structure AState where
  group : Nat
  mode : Nat
  clicks : Nat
  store : Nat → Nat
  pos : Nat

/-- The A17DD battery-check block of `main`: when `shortClicks >= BATTCHECK`
(16), display the level and persist `eepSave(0, group, mode)`. -/
def a17BattcheckBlock (s : AState) : AState :=
  if 16 ≤ s.clicks then
    let sv := eepSave s.store s.pos 0 s.group s.mode
    { s with store := sv.1, pos := sv.2 }
  else s

/-- One battery-monitor check (identical in all variants):
`if (adc < BATTMON) { if (++lowbattCounter > 8) { pmode = (pmode >> 1) + 3; lowbattCounter = 0; } } else lowbattCounter = 0;`
with `BATTMON = 125`.  Returns the new (pmode, lowbattCounter). -/
def batStep (adc pmode counter : Nat) : Nat × Nat :=
  if adc < 125 then
    if 8 < counter + 1 then (byte ((pmode >>> 1) + 3), 0) else (pmode, counter + 1)
  else (pmode, 0)

/-- One turbo-timer check of the A17DD main loop:
`if (turboTicks < TURBO_TIMEOUT) turboTicks++; else { if (pmode == 127) pmode = pmode >> 1; }`
with `TURBO_TIMEOUT = 60`.  Returns the new (pmode, turboTicks). -/
def turboStep (pmode ticks : Nat) : Nat × Nat :=
  if ticks < 60 then (pmode, ticks + 1)
  else if pmode = 127 then (pmode >>> 1, ticks) else (pmode, ticks)

/-- Whether the turbo step-down branch fires at the given pmode and timer. -/
def turboFires (pmode ticks : Nat) : Bool := decide (60 ≤ ticks ∧ pmode = 127)

/-- State of the A17DD normal-operation loop: output value, low-battery debounce
counter, turbo timer. -/
structure RState where
  pmode : Nat
  lowbatt : Nat
  turbo : Nat

/-- One iteration of the A17DD normal-operation (default) loop body, fed one
battery sample: battery monitor first, then the turbo timer. -/
def a17LoopBody (adc : Nat) (s : RState) : RState :=
  let b := batStep adc s.pmode s.lowbatt
  let t := turboStep b.1 s.turbo
  ⟨t.1, b.2, t.2⟩

/-- Whether the turbo step-down fires during this iteration of the loop body. -/
def bodyFires (adc : Nat) (s : RState) : Bool :=
  turboFires (batStep adc s.pmode s.lowbatt).1 s.turbo

/-- Run of the A17DD normal-operation loop over a list of battery samples. -/
def a17Run : List Nat → RState → RState
  | [], s => s
  | a :: rest, s => a17Run rest (a17LoopBody a s)

/-- Number of iterations in which the turbo step-down fires along a run. -/
def fireCount : List Nat → RState → Nat
  | [], _ => 0
  | a :: rest, s => (if bodyFires a s then 1 else 0) + fireCount rest (a17LoopBody a s)

/-! ## Helper lemmas -/

theorem upd_at (s : Nat → Nat) (i v : Nat) : upd s i v i = v := by
  simp [upd]

theorem upd_ne (s : Nat → Nat) (i v x : Nat) (h : x ≠ i) : upd s i v x = s x := by
  simp [upd, h]

theorem land31 : ∀ x, x < 64 → x &&& 31 = x % 32 := by decide

theorem nextPos_eq (pos : Nat) (h : pos < 32) : nextPos pos = (pos + 2) % 32 := by
  unfold nextPos
  exact land31 _ (by omega)

theorem nextPos_lt (pos : Nat) (h : pos < 32) : nextPos pos < 32 := by
  rw [nextPos_eq pos h]
  exact Nat.mod_lt _ (by omega)

theorem eepSave_read_c (st : Nat → Nat) (pos c g m : Nat) (h : pos < 32) :
    (eepSave st pos c g m).1 (nextPos pos) = c := by
  have hnp : nextPos pos = (pos + 2) % 32 := nextPos_eq pos h
  show eepSaveE2 st pos c g m (nextPos pos) = c
  unfold eepSaveE2 eepSaveW2 eepSaveE1 eepSaveW1
  rw [upd_ne _ _ _ _ (by omega), upd_ne _ _ _ _ (by omega), upd_ne _ _ _ _ (by omega), upd_at]

theorem eepSave_read_gm (st : Nat → Nat) (pos c g m : Nat) (h : pos < 32) :
    (eepSave st pos c g m).1 (nextPos pos + 1) = encodeGroupMode g m := by
  have hnp : nextPos pos = (pos + 2) % 32 := nextPos_eq pos h
  show eepSaveE2 st pos c g m (nextPos pos + 1) = encodeGroupMode g m
  unfold eepSaveE2 eepSaveW2
  rw [upd_ne _ _ _ _ (by omega), upd_at]

theorem getNextMode_a17_eff : ∀ g, g < 2 → ∀ m, m < effLen a17groups g →
    getNextMode a17groups g m = if m + 1 < effLen a17groups g then m + 1 else 0 := by decide

theorem getNextMode_nanjg_eff : ∀ g, g < 2 → ∀ m, m < effLen nanjgGroups g →
    getNextMode nanjgGroups g m = if m + 1 < effLen nanjgGroups g then m + 1 else 0 := by decide

theorem decodeGroup_lt (d : Nat) : decodeGroup d < 2 := Nat.mod_lt _ (by omega)

theorem decodeMode_lt (d : Nat) : decodeMode d < 8 := Nat.mod_lt _ (by omega)

theorem eepFind_recStore (t d : Nat) (ht : t ≠ 255) : eepFind (recStore t d) = 0 := by
  unfold eepFind eepFindAux recStore mkStore
  simp [ht]

/-! ## Claim C6 -/

/-- Claim C6 (confirmed): for every group index strictly below `GROUPS_COUNT`
(2), mode index strictly below `MODES_COUNT` (8; 7 in the 1-byte variant),
tally at most 127 and short-flag bit, encoding a log record and then decoding
it yields exactly the original fields, in both the 2-byte encoding
(Nanjg/A17DD `eepSave` plus `decodeGroup`/`decodeMode`/`eepLoad` field masks)
and the 1-byte encoding (quasar.c `codeGroupAndMode` plus its decoders). -/
theorem C6_encode_decode_roundtrip :
    (∀ f : Bool, ∀ t, t < 128 →
      decodeClicks (encodeClicks t f) = t ∧ decodeFlag (encodeClicks t f) = f) ∧
    (∀ g, g < 2 → ∀ m, m < 8 →
      decodeGroup (encodeGroupMode g m) = g ∧ decodeMode (encodeGroupMode g m) = m) ∧
    (∀ f : Bool, ∀ g, g < 2 → ∀ n, n < 7 →
      decodeGroupQ (encodeRecordQ g n f) = g ∧
      decodeModeQ (encodeRecordQ g n f) = n ∧
      decodeFlagQ (encodeRecordQ g n f) = f) := by
  refine ⟨fun f => ?_, by decide, fun f => ?_⟩ <;> cases f <;> decide

/-- Witness for C6 at tally 5, flag set, group 1, mode 3 (mode 2 for the 1-byte
record). -/
theorem C6_witness :
    (5 : Nat) < 128 ∧ (1 : Nat) < 2 ∧ (3 : Nat) < 8 ∧ (2 : Nat) < 7 ∧
    (decodeClicks (encodeClicks 5 true) = 5 ∧ decodeFlag (encodeClicks 5 true) = true) ∧
    (decodeGroup (encodeGroupMode 1 3) = 1 ∧ decodeMode (encodeGroupMode 1 3) = 3) ∧
    (decodeGroupQ (encodeRecordQ 1 2 true) = 1 ∧
     decodeModeQ (encodeRecordQ 1 2 true) = 2 ∧
     decodeFlagQ (encodeRecordQ 1 2 true) = true) :=
  ⟨by decide, by decide, by decide, by decide,
   C6_encode_decode_roundtrip.1 true 5 (by decide),
   C6_encode_decode_roundtrip.2.1 1 (by decide) 3 (by decide),
   C6_encode_decode_roundtrip.2.2 true 1 (by decide) 2 (by decide)⟩

/-! ## Claim C7 -/

/-- Counterexample to claim C7 as stated: the stored byte 0x18 (= 24) carries
group field 3, whose reduction modulo `GROUPS_COUNT` (2) is 1, yet the quasar.c
decoder (`decodeGroup` plus the clamp in `getmode`, lines 169-173) yields
group 0 — the decoded pair is not obtained by reducing the stored fields modulo
the configured counts. -/
theorem C7_counterexample :
    decodeGroupQ 24 = 3 ∧ (3 : Nat) % 2 = 1 ∧ clampGroupQ 24 = 0 ∧ clampGroupQ 24 ≠ 3 % 2 := by
  decide

set_option maxRecDepth 4000 in
/-- Claim C7 (corrected): for every stored byte value, every variant decodes to
a group index strictly below `GROUPS_COUNT` and a mode index strictly below its
`MODES_COUNT`, so the subsequent mode-table lookup is always in bounds; the
2-byte-record variants obtain the indices by reducing the stored fields modulo
the configured counts, while the 1-byte variant (quasar.c) instead clamps an
out-of-range field to 0. -/
theorem C7_decode_in_bounds :
    ∀ d, d < 256 →
      (decodeGroup d = (d >>> 4) % 2 ∧
       decodeMode d = (d &&& 15) % 8 ∧
       decodeGroup d < 2 ∧
       decodeMode d < 8 ∧
       decodeMode d < (nanjgGroups.getD (decodeGroup d) []).length ∧
       clampGroupQ d < 2 ∧
       clampModeQ d < 7 ∧
       clampModeQ d < (quasarGroups.getD (clampGroupQ d) []).length) := by
  decide

/-- Witness for C7 at the stored byte 0xff (all upper bits corrupted/stale). -/
theorem C7_witness :
    (255 : Nat) < 256 ∧
    (decodeGroup 255 = (255 >>> 4) % 2 ∧
     decodeMode 255 = (255 &&& 15) % 8 ∧
     decodeGroup 255 < 2 ∧
     decodeMode 255 < 8 ∧
     decodeMode 255 < (nanjgGroups.getD (decodeGroup 255) []).length ∧
     clampGroupQ 255 < 2 ∧
     clampModeQ 255 < 7 ∧
     clampModeQ 255 < (quasarGroups.getD (clampGroupQ 255) []).length) :=
  ⟨by decide, C7_decode_in_bounds 255 (by decide)⟩

/-! ## Claim C10 -/

/-- Claim C10 (code_bug): on a fully erased store (every byte 0xff) the
quasar.c boot-time scan (`getmode`, line 167) runs to position 32 and reads
`eep[32]` — one past the end of the 32-byte `eep` buffer — because the loop
tests the byte before testing the bound.  The scan's final position is 32 and
index 32 is among the indices it reads, contradicting the claim that only
positions 0 through 31 are ever accessed.  (The 2-byte-record variants bound
their scan at 30 and are not affected.) -/
theorem C10_scan_overruns_buffer :
    getmodeFind (fun _ => 255) = 32 ∧
    32 ∈ getmodeFindReads (fun _ => 255) 33 0 := by
  decide

/-! ## Claim C2 -/

/-- Counterexample to claim C2 as stated: in the quasar.c variant, booting on
the empty store (with the byte one past the buffer — which the overrunning scan
reads — also equal to 0xff) resolves to mode 1, not mode 0: the scan stops at
position 32, the 0xff read there decodes through the clamps to group 0 /
mode 0, but its set bit 7 classifies the boot as short and advances the mode. -/
theorem C2_counterexample :
    getmode (fun _ => 255) = (0, 1) ∧ (1 : Nat) ≠ 0 := by
  decide

/-- Claim C2 (corrected): on an empty store (every byte 0xff) the
2-byte-record variants resolve to group 0, mode 0, tally 0 — the Nanjg v2.0
`eepLoad` directly, and the A17DD `eepLoad` for every OTC sample; the 1-byte
variant (quasar.c `getmode`) however scans past the store and, reading 0xff
there, resolves to group 0, mode 1. -/
theorem C2_empty_store_boot :
    nanjgResolve (fun _ => 255) = (0, 0, 0) ∧
    (∀ mem : Mem, ∀ cap : Nat, a17Resolve mem (fun _ => 255) cap = (0, 0, 0)) ∧
    getmode (fun _ => 255) = (0, 1) := by
  refine ⟨by decide, fun mem cap => ?_, by decide⟩
  cases mem <;> rfl

/-! ## Claims C3 and C4 -/

theorem wdtStep_lock (mem : Mem) (s : NState) (h49 : s.ticks = 49) (hpos : s.pos < 32) :
    (wdtStep mem s).store (wdtStep mem s).pos = 0 ∧
    (wdtStep mem s).store ((wdtStep mem s).pos + 1) =
      encodeGroupMode s.group (lockMode mem s.group s.mode) ∧
    (wdtStep mem s).ticks = 50 ∧ (wdtStep mem s).pos < 32 ∧
    (wdtStep mem s).clicks = s.clicks := by
  unfold wdtStep
  rw [h49]
  norm_num
  exact ⟨eepSave_read_c _ _ _ _ _ hpos, eepSave_read_gm _ _ _ _ _ hpos, nextPos_lt _ hpos⟩

theorem a17Resolve_record (mem : Mem) (t d cap : Nat) (ht : t ≠ 255) :
    a17Resolve mem (recStore t d) cap =
      if 190 < cap then
        (decodeGroup d, getNextMode a17groups (decodeGroup d) (decodeMode d), byte (t + 1))
      else
        (decodeGroup d,
         match mem with
         | .next => getNextMode a17groups (decodeGroup d) (decodeMode d)
         | .first => 0
         | .last => decodeMode d,
         0) := by
  unfold a17Resolve
  rw [eepFind_recStore t d ht]
  show (if recStore t d 0 = 255 then _ else _) = _
  have h0 : recStore t d 0 = t := rfl
  have h1 : recStore t d 1 = d := rfl
  rw [h0, h1, if_neg ht]

/-- Claim C3 (confirmed): for a boot whose prior session is classified long and
whose stored record decodes to group g and mode m within bounds, the A17DD
`eepLoad` resolves the mode to m under `MEM_LAST`, to 0 under `MEM_FIRST`, and
to the successor of m (wrapping at the group's effective length) under
`MEM_NEXT`, and in every case resets the tally to 0; in the Nanjg v2.0 variant
the same policy selection and tally reset happen at lock time: the record the
WDT handler commits at `ticks == LOCKTIME` carries clicks byte 0 and the
policy-selected mode. -/
theorem C3_long_session_policy (mem : Mem) (t d cap : Nat) (s : NState)
    (ht : t ≠ 255)
    (hm : decodeMode d < effLen a17groups (decodeGroup d))
    (hcap : cap ≤ 190)
    (hticks : s.ticks = 49) (hpos : s.pos < 32) (hg : s.group < 2)
    (hsm : s.mode < effLen nanjgGroups s.group) :
    a17Resolve mem (recStore t d) cap =
      (decodeGroup d,
       (match mem with
        | .last => decodeMode d
        | .first => 0
        | .next => if decodeMode d + 1 < effLen a17groups (decodeGroup d)
                   then decodeMode d + 1 else 0),
       0) ∧
    (wdtStep mem s).store (wdtStep mem s).pos = 0 ∧
    (wdtStep mem s).store ((wdtStep mem s).pos + 1) =
      encodeGroupMode s.group
        (match mem with
         | .last => s.mode
         | .first => 0
         | .next => if s.mode + 1 < effLen nanjgGroups s.group then s.mode + 1 else 0) := by
  obtain ⟨hc, hgm, -, -, -⟩ := wdtStep_lock mem s hticks hpos
  refine ⟨?_, hc, ?_⟩
  · rw [a17Resolve_record mem t d cap ht, if_neg (by omega)]
    cases mem with
    | last => rfl
    | first => rfl
    | next =>
        rw [getNextMode_a17_eff _ (decodeGroup_lt d) _ hm]
  · rw [hgm]
    cases mem with
    | last => rfl
    | first => rfl
    | next =>
        show encodeGroupMode s.group (getNextMode nanjgGroups s.group s.mode) = _
        rw [getNextMode_nanjg_eff _ hg _ hsm]

/-- Witness for C3: policy Next, record (tally 5, byte 0x12 = group 1 / mode 2),
OTC sample 0 (long), and a Nanjg state one tick before lock at group 1, mode 2. -/
theorem C3_witness :
    (5 : Nat) ≠ 255 ∧ decodeMode 18 < effLen a17groups (decodeGroup 18) ∧ (0 : Nat) ≤ 190 ∧
    (NState.mk 49 1 2 0 (fun _ => 255) 0).ticks = 49 ∧
    (NState.mk 49 1 2 0 (fun _ => 255) 0).pos < 32 ∧
    (NState.mk 49 1 2 0 (fun _ => 255) 0).group < 2 ∧
    (NState.mk 49 1 2 0 (fun _ => 255) 0).mode <
      effLen nanjgGroups (NState.mk 49 1 2 0 (fun _ => 255) 0).group ∧
    (a17Resolve .next (recStore 5 18) 0 = (1, 3, 0) ∧
     (wdtStep .next (NState.mk 49 1 2 0 (fun _ => 255) 0)).store
       (wdtStep .next (NState.mk 49 1 2 0 (fun _ => 255) 0)).pos = 0 ∧
     (wdtStep .next (NState.mk 49 1 2 0 (fun _ => 255) 0)).store
       ((wdtStep .next (NState.mk 49 1 2 0 (fun _ => 255) 0)).pos + 1) = encodeGroupMode 1 3) :=
  ⟨by decide, by decide, by decide, by decide, by decide, by decide, by decide,
   C3_long_session_policy .next 5 18 0 (NState.mk 49 1 2 0 (fun _ => 255) 0)
     (by decide) (by decide) (by decide) (by decide) (by decide) (by decide) (by decide)⟩

/-- Claim C4 (confirmed): for a boot whose prior session is classified short
(second OTC sample above `CAP_THRESHOLD`) and whose stored record decodes to
group g and mode m with m below the group's effective length, the A17DD
`eepLoad` resolves the mode to m+1 when m+1 is below the effective length and
to 0 otherwise, and resolves the tally to the stored tally plus one; in
particular, for the group [6, 32, 128, 255, 0, 0, 0, 0] (effective length 4)
a stored mode 3 wraps to 0. -/
theorem C4_short_session (mem : Mem) (t d cap : Nat)
    (ht : t < 255)
    (hm : decodeMode d < effLen a17groups (decodeGroup d))
    (hcap : 190 < cap) :
    a17Resolve mem (recStore t d) cap =
      (decodeGroup d,
       if decodeMode d + 1 < effLen a17groups (decodeGroup d) then decodeMode d + 1 else 0,
       t + 1) ∧
    getNextMode nanjgGroups 0 3 = 0 ∧ effLen nanjgGroups 0 = 4 := by
  refine ⟨?_, by decide, by decide⟩
  rw [a17Resolve_record mem t d cap (by omega), if_pos hcap,
    getNextMode_a17_eff _ (decodeGroup_lt d) _ hm]
  have : byte (t + 1) = t + 1 := Nat.mod_eq_of_lt (by omega)
  rw [this]

/-- Witness for C4: record (tally 5, byte 0x13 = group 1 / mode 3), OTC sample
200 (short): resolves to mode 4 and tally 6. -/
theorem C4_witness :
    (5 : Nat) < 255 ∧ decodeMode 19 < effLen a17groups (decodeGroup 19) ∧ (190 : Nat) < 200 ∧
    (a17Resolve .last (recStore 5 19) 200 = (1, 4, 6) ∧
     getNextMode nanjgGroups 0 3 = 0 ∧ effLen nanjgGroups 0 = 4) :=
  ⟨by decide, by decide, by decide,
   C4_short_session .last 5 19 200 (by decide) (by decide) (by decide)⟩

/-! ## Claim C5 -/

theorem wdtStep_preserve (mem : Mem) (s : NState) (h : 50 ≤ s.ticks) :
    (wdtStep mem s).store = s.store ∧ (wdtStep mem s).pos = s.pos ∧
    (wdtStep mem s).clicks = s.clicks ∧ 50 ≤ (wdtStep mem s).ticks := by
  unfold wdtStep
  by_cases h1 : s.ticks < 255
  · rw [if_pos h1, if_neg (by omega)]
    exact ⟨rfl, rfl, rfl, by show 50 ≤ s.ticks + 1; omega⟩
  · rw [if_neg h1]
    exact ⟨rfl, rfl, rfl, h⟩

theorem doSleepW_preserve (mem : Mem) :
    ∀ n, ∀ s : NState, 50 ≤ s.ticks →
      (doSleepW mem n s).store = s.store ∧ (doSleepW mem n s).pos = s.pos ∧
      (doSleepW mem n s).clicks = s.clicks ∧ 50 ≤ (doSleepW mem n s).ticks := by
  intro n
  induction n with
  | zero => exact fun s h => ⟨rfl, rfl, rfl, h⟩
  | succ k ih =>
      intro s h
      obtain ⟨h1, h2, h3, h4⟩ := wdtStep_preserve mem s h
      obtain ⟨i1, i2, i3, i4⟩ := ih (wdtStep mem s) h4
      refine ⟨?_, ?_, ?_, ?_⟩ <;>
        simp only [doSleepW, i1, i2, i3, i4, h1, h2, h3]

theorem doSleepW_lock (mem : Mem) :
    ∀ n, ∀ s : NState, s.ticks < 50 → 50 ≤ s.ticks + n → s.pos < 32 →
      (doSleepW mem n s).store (doSleepW mem n s).pos = 0 ∧
      (doSleepW mem n s).clicks = s.clicks ∧ 50 ≤ (doSleepW mem n s).ticks := by
  intro n
  induction n with
  | zero => intro s h1 h2 _; omega
  | succ k ih =>
      intro s h1 h2 hp
      by_cases h49 : s.ticks = 49
      · obtain ⟨hc, -, ht50, hplt, hck⟩ := wdtStep_lock mem s h49 hp
        obtain ⟨p1, p2, p3, p4⟩ := doSleepW_preserve mem k (wdtStep mem s) (by omega)
        refine ⟨?_, ?_, ?_⟩ <;> simp only [doSleepW, p1, p2, p3, p4]
        · exact hc
        · exact hck
      · have hstep : wdtStep mem s = { s with ticks := s.ticks + 1 } := by
          unfold wdtStep
          rw [if_pos (by omega), if_neg (by omega)]
        obtain ⟨i1, i2, i3⟩ := ih { s with ticks := s.ticks + 1 }
          (by show s.ticks + 1 < 50; omega) (by show 50 ≤ s.ticks + 1 + k; omega) hp
        refine ⟨?_, ?_, ?_⟩ <;> simp only [doSleepW, hstep, i1, i2, i3]

/-- Claim C5 (confirmed): in both variants the battery-check display runs
exactly when the resolved short-click tally is at least `BATTCHECK` (16), and
after the display completes the tally is 0 and a record with clicks byte 0 is
in the log — the A17DD block persists it directly with `eepSave(0, group,
mode)`; the Nanjg v2.0 block clears the RAM tally and the WDT tick handler,
which keeps running through the display's sleep loops, persists a clicks-0
record when `ticks` reaches `LOCKTIME` during the first 50-tick sleep. -/
theorem C5_battcheck_display (mem : Mem) (blinks : Nat) (s u : NState) (a b : AState)
    (h16 : 16 ≤ s.clicks) (ht : s.ticks < 50) (hp : s.pos < 32)
    (hu : u.clicks < 16)
    (ha : 16 ≤ a.clicks) (hap : a.pos < 32)
    (hb : b.clicks < 16) :
    ((battcheckBlock mem blinks s).clicks = 0 ∧
     (battcheckBlock mem blinks s).store (battcheckBlock mem blinks s).pos = 0) ∧
    battcheckBlock mem blinks u = u ∧
    (a17BattcheckBlock a).store (a17BattcheckBlock a).pos = 0 ∧
    a17BattcheckBlock b = b := by
  refine ⟨?_, ?_, ?_, ?_⟩
  · obtain ⟨l1, l2, l3⟩ := doSleepW_lock mem 50 s ht (by omega) hp
    obtain ⟨q1, q2, q3, q4⟩ := doSleepW_preserve mem (30 * blinks) (doSleepW mem 50 s) l3
    obtain ⟨r1, r2, r3, r4⟩ :=
      doSleepW_preserve mem 50 { doSleepW mem (30 * blinks) (doSleepW mem 50 s) with clicks := 0 }
        (show 50 ≤ (doSleepW mem (30 * blinks) (doSleepW mem 50 s)).ticks from q4)
    unfold battcheckBlock
    rw [if_pos h16]
    constructor
    · rw [r3]
    · rw [r1, r2]
      show (doSleepW mem (30 * blinks) (doSleepW mem 50 s)).store
        (doSleepW mem (30 * blinks) (doSleepW mem 50 s)).pos = 0
      rw [q1, q2]
      exact l1
  · unfold battcheckBlock
    rw [if_neg (by omega : ¬ 16 ≤ u.clicks)]
  · have hb : a17BattcheckBlock a =
        { a with store := (eepSave a.store a.pos 0 a.group a.mode).1,
                 pos := (eepSave a.store a.pos 0 a.group a.mode).2 } := by
      unfold a17BattcheckBlock
      rw [if_pos ha]
    rw [hb]
    exact eepSave_read_c _ _ _ _ _ hap
  · unfold a17BattcheckBlock
    rw [if_neg (by omega : ¬ 16 ≤ b.clicks)]

/-- Witness for C5 at concrete states: a Nanjg state with tally 16 at boot and
one with tally 0, an A17DD state with tally 16 and one with tally 0. -/
theorem C5_witness :
    16 ≤ (NState.mk 0 0 1 16 (fun _ => 255) 0).clicks ∧
    (NState.mk 0 0 1 16 (fun _ => 255) 0).ticks < 50 ∧
    (NState.mk 0 0 1 16 (fun _ => 255) 0).pos < 32 ∧
    (NState.mk 0 0 1 0 (fun _ => 255) 0).clicks < 16 ∧
    16 ≤ (AState.mk 0 1 16 (fun _ => 255) 0).clicks ∧
    (AState.mk 0 1 16 (fun _ => 255) 0).pos < 32 ∧
    (AState.mk 0 1 0 (fun _ => 255) 0).clicks < 16 ∧
    (((battcheckBlock .last 4 (NState.mk 0 0 1 16 (fun _ => 255) 0)).clicks = 0 ∧
      (battcheckBlock .last 4 (NState.mk 0 0 1 16 (fun _ => 255) 0)).store
        (battcheckBlock .last 4 (NState.mk 0 0 1 16 (fun _ => 255) 0)).pos = 0) ∧
     battcheckBlock .last 4 (NState.mk 0 0 1 0 (fun _ => 255) 0) =
       NState.mk 0 0 1 0 (fun _ => 255) 0 ∧
     (a17BattcheckBlock (AState.mk 0 1 16 (fun _ => 255) 0)).store
       (a17BattcheckBlock (AState.mk 0 1 16 (fun _ => 255) 0)).pos = 0 ∧
     a17BattcheckBlock (AState.mk 0 1 0 (fun _ => 255) 0) = AState.mk 0 1 0 (fun _ => 255) 0) :=
  ⟨by decide, by decide, by decide, by decide, by decide, by decide, by decide,
   C5_battcheck_display .last 4 (NState.mk 0 0 1 16 (fun _ => 255) 0)
     (NState.mk 0 0 1 0 (fun _ => 255) 0) (AState.mk 0 1 16 (fun _ => 255) 0)
     (AState.mk 0 1 0 (fun _ => 255) 0)
     (by decide) (by decide) (by decide) (by decide) (by decide) (by decide) (by decide)⟩

/-! ## Claims C8 and C9 -/

/-- Output values from which the battery-monitor step can never reproduce the
maximum-brightness code 127: every byte except 248 and 249 (`(v >> 1) + 3 = 127`
only for v = 248 or 249, both of which are themselves unreachable because the
step never outputs a value above 130). -/
def turboSafe (p : Nat) : Prop := p < 256 ∧ p ≠ 248 ∧ p ≠ 249

theorem turboStep_fst (p tt : Nat) :
    (turboStep p tt).1 = if 60 ≤ tt ∧ p = 127 then p >>> 1 else p := by
  unfold turboStep
  by_cases h1 : tt < 60
  · rw [if_pos h1, if_neg (by omega)]
  · rw [if_neg h1]
    by_cases h2 : p = 127
    · rw [if_pos h2, if_pos ⟨by omega, h2⟩]
    · rw [if_neg h2, if_neg (by tauto)]

theorem turboStep_snd_ge (p tt : Nat) : tt ≤ (turboStep p tt).2 := by
  unfold turboStep
  by_cases h1 : tt < 60
  · rw [if_pos h1]
    omega
  · rw [if_neg h1]
    by_cases h2 : p = 127
    · rw [if_pos h2]
    · rw [if_neg h2]

theorem batStep_safe (a p l : Nat) (h : turboSafe p) :
    turboSafe (batStep a p l).1 ∧ ((batStep a p l).1 = 127 → p = 127) := by
  obtain ⟨h1, h2, h3⟩ := h
  unfold batStep byte
  rw [Nat.shiftRight_one]
  by_cases ha : a < 125
  · rw [if_pos ha]
    by_cases hl : 8 < l + 1
    · rw [if_pos hl]
      refine ⟨⟨by omega, by omega, by omega⟩, fun he => by omega⟩
    · rw [if_neg hl]
      exact ⟨⟨h1, h2, h3⟩, fun he => he⟩
  · rw [if_neg ha]
    exact ⟨⟨h1, h2, h3⟩, fun he => he⟩

theorem body_safe (a : Nat) (s : RState) (h : turboSafe s.pmode) :
    turboSafe (a17LoopBody a s).pmode ∧
    ((a17LoopBody a s).pmode = 127 → s.pmode = 127) ∧
    (s.pmode ≠ 127 → bodyFires a s = false) ∧
    (bodyFires a s = true → (a17LoopBody a s).pmode = 63) := by
  obtain ⟨hs, h127⟩ := batStep_safe a s.pmode s.lowbatt h
  have hb : (a17LoopBody a s).pmode = (turboStep (batStep a s.pmode s.lowbatt).1 s.turbo).1 := rfl
  rw [hb, turboStep_fst]
  by_cases hf : 60 ≤ s.turbo ∧ (batStep a s.pmode s.lowbatt).1 = 127
  · rw [if_pos hf]
    have : (127 : Nat) >>> 1 = 63 := by decide
    rw [hf.2, this]
    refine ⟨⟨by omega, by omega, by omega⟩, fun he => by omega, fun hne => ?_, fun _ => rfl⟩
    exact absurd (h127 hf.2) hne
  · rw [if_neg hf]
    refine ⟨hs, h127, fun hne => ?_, fun hfire => ?_⟩
    · unfold bodyFires turboFires
      simp only [decide_eq_false_iff_not]
      intro hcon
      exact hf ⟨hcon.1, hcon.2⟩
    · unfold bodyFires turboFires at hfire
      simp only [decide_eq_true_eq] at hfire
      exact absurd ⟨hfire.1, hfire.2⟩ hf

theorem run_nofire (inputs : List Nat) :
    ∀ s : RState, turboSafe s.pmode → s.pmode ≠ 127 → fireCount inputs s = 0 := by
  induction inputs with
  | nil => intro s _ _; rfl
  | cons a rest ih =>
      intro s hs hne
      obtain ⟨b1, b2, b3, -⟩ := body_safe a s hs
      show (if bodyFires a s then 1 else 0) + fireCount rest (a17LoopBody a s) = 0
      rw [b3 hne, ih (a17LoopBody a s) b1 (fun hc => hne (b2 hc))]
      rfl

theorem run_fire_le_one (inputs : List Nat) :
    ∀ s : RState, turboSafe s.pmode → fireCount inputs s ≤ 1 := by
  induction inputs with
  | nil => intro s _; exact Nat.zero_le 1
  | cons a rest ih =>
      intro s hs
      obtain ⟨b1, -, -, b4⟩ := body_safe a s hs
      show (if bodyFires a s then 1 else 0) + fireCount rest (a17LoopBody a s) ≤ 1
      by_cases hf : bodyFires a s
      · rw [if_pos hf,
          run_nofire rest (a17LoopBody a s) b1 (by rw [b4 hf]; omega)]
      · rw [if_neg hf]
        have := ih (a17LoopBody a s) b1
        omega

theorem run_turbo_mono (inputs : List Nat) :
    ∀ s : RState, s.turbo ≤ (a17Run inputs s).turbo := by
  induction inputs with
  | nil => intro s; exact Nat.le_refl _
  | cons a rest ih =>
      intro s
      have h1 : s.turbo ≤ (a17LoopBody a s).turbo := turboStep_snd_ge _ _
      exact Nat.le_trans h1 (ih (a17LoopBody a s))

/-- Claim C8 (confirmed): in the A17DD normal-operation loop, once the turbo
counter has reached `TURBO_TIMEOUT` (60) while the output value is the
maximum-brightness code 127, the next iteration (with an in-range battery
sample) steps the output down to half (`127 >> 1`) without touching the timer;
for every run from a reachable output value the turbo step-down fires at most
once — after it fires the value is 63 and the code 127 is never re-entered —
and the timer is never reset (it is monotone along every run). -/
theorem C8_turbo_one_shot (inputs : List Nat) (s u : RState) (adc : Nat)
    (h1 : s.pmode < 256) (h2 : s.pmode ≠ 248) (h3 : s.pmode ≠ 249)
    (h4 : 125 ≤ adc) (h5 : u.pmode = 127) (h6 : 60 ≤ u.turbo) :
    (a17LoopBody adc u).pmode = 127 >>> 1 ∧
    (a17LoopBody adc u).turbo = u.turbo ∧
    bodyFires adc u = true ∧
    fireCount inputs s ≤ 1 ∧
    s.turbo ≤ (a17Run inputs s).turbo := by
  have hbat : batStep adc u.pmode u.lowbatt = (u.pmode, 0) := by
    unfold batStep
    rw [if_neg (by omega)]
  refine ⟨?_, ?_, ?_, run_fire_le_one inputs s ⟨h1, h2, h3⟩, run_turbo_mono inputs s⟩
  · have hb : (a17LoopBody adc u).pmode = (turboStep (batStep adc u.pmode u.lowbatt).1 u.turbo).1 :=
      rfl
    rw [hb, hbat, turboStep_fst, if_pos ⟨h6, h5⟩, h5]
  · have hb : (a17LoopBody adc u).turbo = (turboStep (batStep adc u.pmode u.lowbatt).1 u.turbo).2 :=
      rfl
    rw [hb, hbat]
    unfold turboStep
    rw [if_neg (by omega), if_pos h5]
  · unfold bodyFires
    rw [hbat]
    unfold turboFires
    simp only [decide_eq_true_eq]
    exact ⟨h6, h5⟩

/-- Witness for C8 at the state (pmode 127, turbo timer expired) and a two-tick
run with in-range battery samples. -/
theorem C8_witness :
    (RState.mk 127 0 60).pmode < 256 ∧ (RState.mk 127 0 60).pmode ≠ 248 ∧
    (RState.mk 127 0 60).pmode ≠ 249 ∧ (125 : Nat) ≤ 200 ∧
    (RState.mk 127 0 60).pmode = 127 ∧ (60 : Nat) ≤ (RState.mk 127 0 60).turbo ∧
    ((a17LoopBody 200 (RState.mk 127 0 60)).pmode = 127 >>> 1 ∧
     (a17LoopBody 200 (RState.mk 127 0 60)).turbo = (RState.mk 127 0 60).turbo ∧
     bodyFires 200 (RState.mk 127 0 60) = true ∧
     fireCount [200, 200] (RState.mk 127 0 60) ≤ 1 ∧
     (RState.mk 127 0 60).turbo ≤ (a17Run [200, 200] (RState.mk 127 0 60)).turbo) :=
  ⟨by decide, by decide, by decide, by decide, by decide, by decide,
   C8_turbo_one_shot [200, 200] (RState.mk 127 0 60) (RState.mk 127 0 60) 200
     (by decide) (by decide) (by decide) (by decide) (by decide) (by decide)⟩

/-- Claim C9 (confirmed): in the normal-operation loop's battery monitor, a
below-threshold sample on the ninth consecutive low tick (counter already 8,
i.e. more than 8 consecutive low readings) steps the output down to
`(v >> 1) + 3` and resets the debounce counter to 0; a below-threshold sample
with a smaller counter only increments the counter; a single in-range sample
resets the counter to 0 without changing the output; and for every reachable
output value (all table values are at least 6, and the step keeps values at
least 6) the step-down never produces a larger value — the whole loop body
never increases the output. -/
theorem C9_lowbatt_ratchet (a c d v p1 lb1 p2 lb2 p3 lb3 : Nat) (u : RState)
    (ha : a < 125) (hlb1 : 8 ≤ lb1) (hlb2 : lb2 < 8) (hc : 125 ≤ c)
    (hv6 : 6 ≤ v) (hv : v < 256) (hu6 : 6 ≤ u.pmode) (hu : u.pmode < 256) :
    batStep a p1 lb1 = (byte ((p1 >>> 1) + 3), 0) ∧
    batStep a p2 lb2 = (p2, lb2 + 1) ∧
    batStep c p3 lb3 = (p3, 0) ∧
    (byte ((v >>> 1) + 3) = (v >>> 1) + 3 ∧ (v >>> 1) + 3 ≤ v ∧ 6 ≤ (v >>> 1) + 3) ∧
    (a17LoopBody d u).pmode ≤ u.pmode := by
  refine ⟨?_, ?_, ?_, ?_, ?_⟩
  · unfold batStep
    rw [if_pos ha, if_pos (by omega)]
  · unfold batStep
    rw [if_pos ha, if_neg (by omega)]
  · unfold batStep
    rw [if_neg (by omega)]
  · unfold byte
    rw [Nat.shiftRight_one]
    refine ⟨by omega, by omega, by omega⟩
  · have hb : (a17LoopBody d u).pmode = (turboStep (batStep d u.pmode u.lowbatt).1 u.turbo).1 :=
      rfl
    have hbat : (batStep d u.pmode u.lowbatt).1 = u.pmode ∨
        (batStep d u.pmode u.lowbatt).1 = byte ((u.pmode >>> 1) + 3) := by
      unfold batStep
      by_cases h1 : d < 125
      · rw [if_pos h1]
        by_cases h2 : 8 < u.lowbatt + 1
        · rw [if_pos h2]
          exact Or.inr rfl
        · rw [if_neg h2]
          exact Or.inl rfl
      · rw [if_neg h1]
        exact Or.inl rfl
    have hbyte : byte ((u.pmode >>> 1) + 3) ≤ u.pmode := by
      unfold byte
      rw [Nat.shiftRight_one]
      omega
    rw [hb, turboStep_fst]
    by_cases hf : 60 ≤ u.turbo ∧ (batStep d u.pmode u.lowbatt).1 = 127
    · rw [if_pos hf, hf.2, Nat.shiftRight_one]
      rcases hbat with he | he <;> rw [he] at hf <;> omega
    · rw [if_neg hf]
      rcases hbat with he | he <;> rw [he]
      exact hbyte

/-- Witness for C9 at output value 127, a low sample 100, an in-range sample
200, counter values 8 and 3, and the loop state (pmode 127, counter 0). -/
theorem C9_witness :
    (100 : Nat) < 125 ∧ (8 : Nat) ≤ 8 ∧ (3 : Nat) < 8 ∧ (125 : Nat) ≤ 200 ∧
    (6 : Nat) ≤ 127 ∧ (127 : Nat) < 256 ∧
    (6 : Nat) ≤ (RState.mk 127 0 0).pmode ∧ (RState.mk 127 0 0).pmode < 256 ∧
    (batStep 100 127 8 = (byte ((127 >>> 1) + 3), 0) ∧
     batStep 100 64 3 = (64, 3 + 1) ∧
     batStep 200 32 7 = (32, 0) ∧
     (byte ((127 >>> 1) + 3) = (127 >>> 1) + 3 ∧ (127 >>> 1) + 3 ≤ 127 ∧
      6 ≤ (127 >>> 1) + 3) ∧
     (a17LoopBody 100 (RState.mk 127 0 0)).pmode ≤ (RState.mk 127 0 0).pmode) :=
  ⟨by decide, by decide, by decide, by decide, by decide, by decide, by decide, by decide,
   C9_lowbatt_ratchet 100 200 100 127 127 8 64 3 32 7 (RState.mk 127 0 0)
     (by decide) (by decide) (by decide) (by decide) (by decide) (by decide)
     (by decide) (by decide)⟩

/-- All mode-table values of all three variants are either the group-end
sentinel 0 or at least 6, so every displayable output value starts at 6 or
above, where the low-battery step-down can never increase it. -/
theorem table_values_ge_six :
    ∀ g, g < 2 → ∀ m, m < 8 →
      (tableGet a17groups g m = 0 ∨ 6 ≤ tableGet a17groups g m) ∧
      (tableGet nanjgGroups g m = 0 ∨ 6 ≤ tableGet nanjgGroups g m) ∧
      (tableGet quasarGroups g m = 0 ∨ 6 ≤ tableGet quasarGroups g m) := by
  decide

/-! ## Claim C1 -/

theorem eepSaveW1_eval (st : Nat → Nat) (pos c x : Nat) :
    eepSaveW1 st pos c x = if x = nextPos pos then c else st x := rfl

theorem eepSaveE1_eval (st : Nat → Nat) (pos c x : Nat) :
    eepSaveE1 st pos c x =
      if x = pos then 255 else if x = nextPos pos then c else st x := rfl

theorem eepSaveE2_eval (st : Nat → Nat) (pos c g m x : Nat) :
    eepSaveE2 st pos c g m x =
      if x = pos + 1 then 255
      else if x = nextPos pos + 1 then encodeGroupMode g m
      else if x = pos then 255
      else if x = nextPos pos then c
      else st x := rfl

theorem mkStore_eval (k b0 b1 x : Nat) :
    mkStore k b0 b1 x = if x = 2 * k then b0 else if x = 2 * k + 1 then b1 else 255 := rfl

/-- Counterexample to claim C1 as stated: from the store whose single complete
record sits in slot 0, `eepSave` reaches its second step (new clicks byte
written at position 2, old clicks byte at position 0 just erased) with zero
complete records in the store — and with the erase of the previous slot already
begun (position 0 reads 0xff) while the new record's write has not completed
(position 3 still reads 0xff).  A power cut there leaves no complete record. -/
theorem C1_counterexample :
    completeCount exStore = 1 ∧
    completeCount ((eepSaveSteps exStore 0 129 0 1).getD 1 exStore) = 0 ∧
    ((eepSaveSteps exStore 0 129 0 1).getD 1 exStore) 0 = 255 ∧
    ((eepSaveSteps exStore 0 129 0 1).getD 1 exStore) 3 = 255 := by
  decide

/-- Claim C1 (corrected): from a store containing exactly one complete record
in slot k, `eepSave` advances the write position to `(pos + 2) & 31` and works
byte-interleaved — write new clicks byte, erase old clicks byte, write new
group/mode byte, erase old group/mode byte — so a power cut can leave zero
complete records (second step, see the counterexample), but every intermediate
state keeps at least one non-erased byte inside the 32-byte region, the final
state holds exactly one complete record, located in the next slot and carrying
the new bytes, and 16 consecutive position advances return the write position
exactly to its starting slot. -/
theorem C1_append_interleaved (k b0 b1 c g m : Nat)
    (hk : k < 16) (hb0 : b0 ≠ 255) (hb1 : b1 ≠ 255) (hc : c ≠ 255)
    (hgm : encodeGroupMode g m ≠ 255) :
    (∀ p, p < 32 → nextPos^[16] p = p) ∧
    (eepSave (mkStore k b0 b1) (2 * k) c g m).2 = nextPos (2 * k) ∧
    (∀ i, i < 4 → ∃ a, a < 32 ∧
      (eepSaveSteps (mkStore k b0 b1) (2 * k) c g m).getD i (mkStore k b0 b1) a ≠ 255) ∧
    (∀ j, j < 16 →
      (slotComplete (eepSave (mkStore k b0 b1) (2 * k) c g m).1 j ↔ j = (k + 1) % 16)) ∧
    (eepSave (mkStore k b0 b1) (2 * k) c g m).1 (nextPos (2 * k)) = c ∧
    (eepSave (mkStore k b0 b1) (2 * k) c g m).1 (nextPos (2 * k) + 1) = encodeGroupMode g m := by
  have h2k : 2 * k < 32 := by omega
  have hnp : nextPos (2 * k) = 2 * ((k + 1) % 16) := by
    rw [nextPos_eq _ h2k]
    omega
  refine ⟨by decide, rfl, ?_, ?_, eepSave_read_c _ _ _ _ _ h2k, eepSave_read_gm _ _ _ _ _ h2k⟩
  · intro i hi
    interval_cases i
    · refine ⟨2 * k, by omega, ?_⟩
      show eepSaveW1 (mkStore k b0 b1) (2 * k) c (2 * k) ≠ 255
      rw [eepSaveW1_eval, if_neg (by omega), mkStore_eval, if_pos rfl]
      exact hb0
    · refine ⟨2 * k + 1, by omega, ?_⟩
      show eepSaveE1 (mkStore k b0 b1) (2 * k) c (2 * k + 1) ≠ 255
      rw [eepSaveE1_eval, if_neg (by omega), if_neg (by omega), mkStore_eval,
        if_neg (by omega), if_pos rfl]
      exact hb1
    · refine ⟨nextPos (2 * k) + 1, by omega, ?_⟩
      show eepSaveW2 (mkStore k b0 b1) (2 * k) c g m (nextPos (2 * k) + 1) ≠ 255
      unfold eepSaveW2
      rw [upd_at]
      exact hgm
    · refine ⟨nextPos (2 * k), by omega, ?_⟩
      show eepSaveE2 (mkStore k b0 b1) (2 * k) c g m (nextPos (2 * k)) ≠ 255
      rw [eepSaveE2_eval, if_neg (by omega), if_neg (by omega), if_neg (by omega),
        if_pos rfl]
      exact hc
  · intro j hj
    by_cases hj1 : j = (k + 1) % 16
    · refine iff_of_true ⟨?_, ?_⟩ hj1
      · show eepSaveE2 (mkStore k b0 b1) (2 * k) c g m (2 * j) ≠ 255
        rw [eepSaveE2_eval, if_neg (by omega), if_neg (by omega), if_neg (by omega),
          if_pos (by omega)]
        exact hc
      · show eepSaveE2 (mkStore k b0 b1) (2 * k) c g m (2 * j + 1) ≠ 255
        rw [eepSaveE2_eval, if_neg (by omega), if_pos (by omega)]
        exact hgm
    · refine iff_of_false (fun hcomp => ?_) hj1
      apply hcomp.1
      show eepSaveE2 (mkStore k b0 b1) (2 * k) c g m (2 * j) = 255
      by_cases hjk : j = k
      · rw [eepSaveE2_eval, if_neg (by omega), if_neg (by omega), if_pos (by omega)]
      · rw [eepSaveE2_eval, if_neg (by omega), if_neg (by omega), if_neg (by omega),
          if_neg (by omega), mkStore_eval, if_neg (by omega), if_neg (by omega)]

/-- Witness for C1: slot 0 holding record (0x80, 0x00), appending clicks byte
0x81 with group 0, mode 1. -/
theorem C1_witness :
    (0 : Nat) < 16 ∧ (128 : Nat) ≠ 255 ∧ (0 : Nat) ≠ 255 ∧ (129 : Nat) ≠ 255 ∧
    encodeGroupMode 0 1 ≠ 255 ∧
    ((∀ p, p < 32 → nextPos^[16] p = p) ∧
     (eepSave (mkStore 0 128 0) (2 * 0) 129 0 1).2 = nextPos (2 * 0) ∧
     (∀ i, i < 4 → ∃ a, a < 32 ∧
       (eepSaveSteps (mkStore 0 128 0) (2 * 0) 129 0 1).getD i (mkStore 0 128 0) a ≠ 255) ∧
     (∀ j, j < 16 →
       (slotComplete (eepSave (mkStore 0 128 0) (2 * 0) 129 0 1).1 j ↔ j = (0 + 1) % 16)) ∧
     (eepSave (mkStore 0 128 0) (2 * 0) 129 0 1).1 (nextPos (2 * 0)) = 129 ∧
     (eepSave (mkStore 0 128 0) (2 * 0) 129 0 1).1 (nextPos (2 * 0) + 1) =
       encodeGroupMode 0 1) :=
  ⟨by decide, by decide, by decide, by decide, by decide,
   C1_append_interleaved 0 128 0 129 0 1 (by decide) (by decide) (by decide) (by decide)
     (by decide)⟩

end Quasar
